import Mathlib

/-!
Shallow embedding of `src/repositories/default-transaction-soft-crud.repository.base.ts`
(`DefaultTransactionSoftCrudRepository`), a soft-delete policy layer over a generic
CRUD store.  The underlying store (`DefaultTransactionalRepository`, i.e. the `super.*`
calls) is modelled as operations on a `List SoftDeleteEntity` database.  Filters and
where clauses are modelled semantically as boolean predicates over records, matching
the spec's statement that the layer assumes no filter grammar beyond AND-composition
with a not-deleted constraint and an id constraint.  JavaScript identity values
(truthiness, `toString`) are modelled by `JsVal`.
-/

namespace SoftDelete

/-- Model of a JavaScript value used as a user id: a string, a number, or a
nullish value.  Captures JS truthiness and `toString`, which `getUserId` relies on. -/
inductive JsVal where
  | vstr : String → JsVal
  | vnum : Nat → JsVal
  | vnull : JsVal
deriving DecidableEq, Repr

/-- JS truthiness of a `JsVal`: empty string, zero and nullish are falsy. -/
def JsVal.truthy : JsVal → Bool
  | .vstr s => !(s == "")
  | .vnum n => !(n == 0)
  | .vnull => false

/-- JS `toString` on a `JsVal` (only reached on truthy values in `getUserId`). -/
def JsVal.jsToString : JsVal → String
  | .vstr s => s
  | .vnum n => toString n
  | .vnull => "null"

/-- The `IAuthUser` shape: an object with at least an `id` field. -/
structure IAuthUser where
  id : JsVal
deriving DecidableEq, Repr

/-- The per-call options bag, which may carry a fallback `currentUser`. -/
structure CallOptions where
  currentUser : Option IAuthUser
deriving DecidableEq, Repr

/-- A record carrying the three soft-delete attributes (`SoftDeleteEntity`),
an id, and one opaque extra field standing for the entity's other columns. -/
structure SoftDeleteEntity where
  id : Nat
  deleted : Bool
  deletedOn : Option Nat
  deletedBy : Option String
  extra : Nat
deriving DecidableEq, Repr

/-- A where clause / filter, modelled semantically as a predicate on records. -/
abbrev WhereClause := SoftDeleteEntity → Bool

/-- Repository state: the optional injected identity accessor `getCurrentUser`
(outer `Option` = accessor configured at all; inner = whether it yields a user)
and the wall-clock time `new Date()` observed during the call. -/
structure RepoCtx where
  getCurrentUser : Option (Option IAuthUser)
  now : Nat

/-! Underlying store (`super.*` of `DefaultTransactionalRepository`). -/

/-- Underlying `super.find(filter)`: all records matching the filter (no filter = all). -/
def superFind (filter : Option WhereClause) (db : List SoftDeleteEntity) :
    List SoftDeleteEntity :=
  db.filter (fun r => (filter.getD (fun _ => true)) r)

/-- Underlying `super.findOne(filter)`: first record matching the filter, if any. -/
def superFindOne (filter : Option WhereClause) (db : List SoftDeleteEntity) :
    Option SoftDeleteEntity :=
  (superFind filter db).head?

/-- Underlying `super.findById(id, filter)`: by-id lookup.  The parent's filter is
`FilterExcludingWhere`, so the where part plays no role in record selection;
the parameter is kept to model the call shape. -/
def superFindById (i : Nat) (_filter : Option WhereClause)
    (db : List SoftDeleteEntity) : Option SoftDeleteEntity :=
  db.find? (fun r => r.id == i)

/-- Underlying `super.update(entity)`: update-by-identity, replacing the record whose id
matches the entity's id. -/
def superUpdate (e : SoftDeleteEntity) (db : List SoftDeleteEntity) :
    List SoftDeleteEntity :=
  db.map (fun r => if r.id == e.id then e else r)

/-- Underlying `super.updateAll(data, where)`: apply the data patch to every record matching
the where clause; return the new database and the affected count. -/
def superUpdateAll (data : SoftDeleteEntity → SoftDeleteEntity)
    (w : Option WhereClause) (db : List SoftDeleteEntity) :
    List SoftDeleteEntity × Nat :=
  ( db.map (fun r => if (w.getD (fun _ => true)) r then data r else r),
    (db.filter (fun r => (w.getD (fun _ => true)) r)).length )

/-- Underlying `super.updateById(id, data)`: apply the data patch to the record with the id. -/
def superUpdateById (i : Nat) (data : SoftDeleteEntity → SoftDeleteEntity)
    (db : List SoftDeleteEntity) : List SoftDeleteEntity :=
  db.map (fun r => if r.id == i then data r else r)

/-! Predicate rewriter (`repo-utils`, imported by the source but not under src/). -/

/-- Modelled from the spec: `produceSoftDeleteFilter` (`augmentFilter` of the
Predicate Rewriter in `src/repositories/repo-utils`, whose source is not in the
repository snapshot): returns a filter whose where clause is the logical AND of
the original where, `deleted = false`, and any extra id constraint; if the
original filter is absent, only the exclusion (and extras) remains. -/
def produceSoftDeleteFilter (filter : Option WhereClause) (idConstraint : Option Nat) :
    WhereClause :=
  fun r =>
    (filter.getD (fun _ => true)) r && r.deleted == false &&
      (match idConstraint with
       | some i => r.id == i
       | none => true)

/-- Modelled from the spec: `produceSoftDeleteWhere` (`augmentWhere` of the
Predicate Rewriter in `src/repositories/repo-utils`, whose source is not in the
repository snapshot): AND-composes the original where clause with `deleted = false`. -/
def produceSoftDeleteWhere (w : Option WhereClause) : WhereClause :=
  fun r => (w.getD (fun _ => true)) r && r.deleted == false

/-! The soft-delete policy layer operations. -/

/-- Errors observable from the by-id lookups: the layer's own `EntityNotFound`
(`HttpErrors.NotFound(ErrorKeys.EntityNotFound)`) and the underlying store's
own not-found signal from `super.findById`. -/
inductive RepoError where
  | entityNotFound
  | storeNotFound
deriving DecidableEq, Repr

/-- Operation `find(filter)`: rewrites the filter through `produceSoftDeleteFilter`, then
delegates to `super.find`. -/
def find (filter : Option WhereClause) (db : List SoftDeleteEntity) :
    List SoftDeleteEntity :=
  superFind (some (produceSoftDeleteFilter filter none)) db

/-- Operation `findAll(filter)`: delegates to `super.find` with the filter unmodified. -/
def findAll (filter : Option WhereClause) (db : List SoftDeleteEntity) :
    List SoftDeleteEntity :=
  superFind filter db

/-- Operation `findById(id, filter)`: augments the filter with the exclusion and an id
constraint, probes existence via `super.findOne` on the augmented filter, and
either delegates to `super.findById` with the same augmented filter or throws
`EntityNotFound`. -/
def findById (i : Nat) (filter : Option WhereClause) (db : List SoftDeleteEntity) :
    Except RepoError SoftDeleteEntity :=
  let filter' := produceSoftDeleteFilter filter (some i)
  match superFindOne (some filter') db with
  | some _ =>
    match superFindById i (some filter') db with
    | some r => .ok r
    | none => .error .storeNotFound
  | none => .error .entityNotFound

/-- Operation `findByIdIncludeSoftDelete(id, filter)`: unmodified `super.findById`;
the store's own not-found behavior applies. -/
def findByIdIncludeSoftDelete (i : Nat) (filter : Option WhereClause)
    (db : List SoftDeleteEntity) : Except RepoError SoftDeleteEntity :=
  match superFindById i filter db with
  | some r => .ok r
  | none => .error .storeNotFound

/-- Operation `updateAll(data, where)`: augments the where clause with the exclusion via
`produceSoftDeleteWhere`, then delegates to `super.updateAll`. -/
def updateAll (data : SoftDeleteEntity → SoftDeleteEntity) (w : Option WhereClause)
    (db : List SoftDeleteEntity) : List SoftDeleteEntity × Nat :=
  superUpdateAll data (some (produceSoftDeleteWhere w)) db

/-- Helper `getUserId(options?)`: resolves the acting identity.  Returns `none` when the
accessor is absent; otherwise takes the accessor's user, falling back to
`options?.currentUser` via `??`; returns `none` when the result is falsy or has a
falsy `id`, else the id's string conversion. -/
def getUserId (repo : RepoCtx) (options : Option CallOptions) : Option String :=
  match repo.getCurrentUser with
  | none => none
  | some fromAccessor =>
    let currentUser :=
      match fromAccessor with
      | some u => some u
      | none => options.bind (fun o => o.currentUser)
    match currentUser with
    | none => none
    | some u => if u.id.truthy then some u.id.jsToString else none

/-- The tombstone patch built by `deleteAll` / `deleteById`: one `deleted` flag,
one timestamp, one resolved actor. -/
structure TombstonePatch where
  deleted : Bool
  deletedOn : Nat
  deletedBy : Option String
deriving DecidableEq, Repr

/-- Applying a tombstone patch to a record (the store's patch semantics on the
three soft-delete fields; other fields are untouched). -/
def applyPatch (p : TombstonePatch) (r : SoftDeleteEntity) : SoftDeleteEntity :=
  { r with deleted := p.deleted, deletedOn := some p.deletedOn, deletedBy := p.deletedBy }

/-- Operation `delete(entity, options?)`: mutates the entity's three tombstone fields
(`deleted`, `deletedOn`, `deletedBy`) and persists it via `super.update`.
Note the source calls `this.getUserId()` with no arguments, so the options bag
is not forwarded to identity resolution.  Returns the mutated entity and the
new database. -/
def delete (repo : RepoCtx) (e : SoftDeleteEntity) (db : List SoftDeleteEntity)
    (_options : Option CallOptions) : SoftDeleteEntity × List SoftDeleteEntity :=
  let e' := { e with deleted := true, deletedOn := some repo.now,
                     deletedBy := getUserId repo none }
  (e', superUpdate e' db)

/-- Operation `deleteAll(where, options?)`: builds a single tombstone patch (one timestamp,
one actor resolved by `this.getUserId()` with no arguments) and applies it via
the layer's own `updateAll`.  Returns the new database and the affected count. -/
def deleteAll (repo : RepoCtx) (w : Option WhereClause)
    (_options : Option CallOptions) (db : List SoftDeleteEntity) :
    List SoftDeleteEntity × Nat :=
  updateAll
    (applyPatch { deleted := true, deletedOn := repo.now,
                  deletedBy := getUserId repo none }) w db

/-- Operation `deleteById(id, options?)`: builds a tombstone patch (actor resolved by
`this.getUserId()` with no arguments) and applies it via `super.updateById`,
unconditionally. -/
def deleteById (repo : RepoCtx) (i : Nat) (_options : Option CallOptions)
    (db : List SoftDeleteEntity) : List SoftDeleteEntity :=
  superUpdateById i
    (applyPatch { deleted := true, deletedOn := repo.now,
                  deletedBy := getUserId repo none }) db

/-- The data-model invariant: `deleted = true` iff `deletedOn` is set. -/
def tombstoneInvariant (r : SoftDeleteEntity) : Prop :=
  r.deleted = true ↔ r.deletedOn.isSome = true

/-- Claim C1: `find` passes the filter through the soft-delete rewriter before
delegating to the underlying store, `findAll` delegates with the filter
unmodified, and consequently `find filter db` is exactly the subset of
`findAll filter db` whose `deleted` flag is false. -/
theorem find_is_findAll_restricted_to_live (filter : Option WhereClause)
    (db : List SoftDeleteEntity) :
    find filter db = superFind (some (produceSoftDeleteFilter filter none)) db ∧
    findAll filter db = superFind filter db ∧
    find filter db = (findAll filter db).filter (fun r => r.deleted == false) := by
  refine ⟨rfl, rfl, ?_⟩
  simp only [find, findAll, superFind, Option.getD_some, List.filter_filter]
  refine List.filter_congr ?_
  intro x _
  cases hx : x.deleted <;> cases hfx : filter.getD (fun _ => true) x <;>
    simp [produceSoftDeleteFilter, hx, hfx]

/-- Claim C3: `deleteAll` builds exactly one tombstone patch (a single timestamp
`repo.now` and a single resolved actor `getUserId repo none`) and applies it
through the layer's own `updateAll`, whose predicate is augmented with the
non-tombstoned exclusion; already-tombstoned records are mapped to themselves,
and the returned count is the number of non-tombstoned matches of `w`. -/
theorem deleteAll_tombstones_live_matches (repo : RepoCtx) (w : WhereClause)
    (opts : Option CallOptions) (db : List SoftDeleteEntity) :
    deleteAll repo (some w) opts db =
      updateAll (applyPatch { deleted := true, deletedOn := repo.now,
                              deletedBy := getUserId repo none }) (some w) db ∧
    (deleteAll repo (some w) opts db).1 =
      db.map (fun r =>
        if w r && r.deleted == false then
          { r with deleted := true, deletedOn := some repo.now,
                   deletedBy := getUserId repo none }
        else r) ∧
    (deleteAll repo (some w) opts db).2 =
      (db.filter (fun r => w r && r.deleted == false)).length := by
  refine ⟨rfl, ?_, ?_⟩ <;>
    simp [deleteAll, updateAll, superUpdateAll, produceSoftDeleteWhere, applyPatch]

/-- Claim C9: `delete` is idempotent on the tombstone flag: after one call the
flag is true, and after a second call (with a fresh clock and identity context)
the flag is still true while `deletedOn` and `deletedBy` carry the second
call's freshly computed values. -/
theorem delete_twice_keeps_flag (repo1 repo2 : RepoCtx) (e : SoftDeleteEntity)
    (db : List SoftDeleteEntity) (o1 o2 : Option CallOptions) :
    (delete repo1 e db o1).1.deleted = true ∧
    (delete repo2 (delete repo1 e db o1).1 (delete repo1 e db o1).2 o2).1.deleted
      = true ∧
    (delete repo2 (delete repo1 e db o1).1 (delete repo1 e db o1).2 o2).1.deletedOn
      = some repo2.now ∧
    (delete repo2 (delete repo1 e db o1).1 (delete repo1 e db o1).2 o2).1.deletedBy
      = getUserId repo2 none :=
  ⟨rfl, rfl, rfl, rfl⟩

/-- Claim C5: `findById` probes existence by a find-one against the filter
augmented with the non-tombstoned exclusion and an id constraint; if the probe
returns nothing it fails with `EntityNotFound`, and if the probe returns an
entity it delegates to the underlying by-id fetch with the same augmented
filter. -/
theorem findById_probes_then_fetches (i : Nat) (filter : Option WhereClause)
    (db : List SoftDeleteEntity) :
    (superFindOne (some (produceSoftDeleteFilter filter (some i))) db = none →
      findById i filter db = .error .entityNotFound) ∧
    (∀ e, superFindOne (some (produceSoftDeleteFilter filter (some i))) db = some e →
      findById i filter db =
        match superFindById i (some (produceSoftDeleteFilter filter (some i))) db with
        | some r => Except.ok r
        | none => Except.error RepoError.storeNotFound) := by
  constructor
  · intro h
    simp [findById, h]
  · intro e h
    simp [findById, h]

/-- Witness for C5 at a concrete database holding one live record with id 2:
the probe succeeds and `findById` returns that record. -/
theorem findById_probes_then_fetches_witness :
    superFindOne (some (produceSoftDeleteFilter none (some 2)))
      [⟨2, false, none, none, 7⟩] = some ⟨2, false, none, none, 7⟩ ∧
    findById 2 none [⟨2, false, none, none, 7⟩] = Except.ok ⟨2, false, none, none, 7⟩ := by
  refine ⟨rfl, ?_⟩
  have h := (findById_probes_then_fetches 2 none [⟨2, false, none, none, 7⟩]).2
    ⟨2, false, none, none, 7⟩ rfl
  simpa using h

/-- Claim C8 fails on the code: `getUserId` itself would resolve the options
bag's fallback `currentUser` to `"u2"`, but every soft-delete call site invokes
`getUserId` without forwarding the options bag, so `delete`, `deleteAll` and
`deleteById` all record `deletedBy = none` even when the options bag carries a
user and the accessor yields none. -/
theorem options_bag_fallback_is_dead_code :
    getUserId ⟨some none, 5⟩ (some ⟨some ⟨JsVal.vstr "u2"⟩⟩) = some "u2" ∧
    (delete ⟨some none, 5⟩ ⟨1, false, none, none, 0⟩ [⟨1, false, none, none, 0⟩]
      (some ⟨some ⟨JsVal.vstr "u2"⟩⟩)).1.deletedBy = none ∧
    (deleteAll ⟨some none, 5⟩ none (some ⟨some ⟨JsVal.vstr "u2"⟩⟩)
      [⟨1, false, none, none, 0⟩]).1 = [⟨1, true, some 5, none, 0⟩] ∧
    deleteById ⟨some none, 5⟩ 1 (some ⟨some ⟨JsVal.vstr "u2"⟩⟩)
      [⟨1, false, none, none, 0⟩] = [⟨1, true, some 5, none, 0⟩] := by
  refine ⟨rfl, rfl, ?_, ?_⟩ <;>
    simp [deleteAll, deleteById, updateAll, superUpdateAll, superUpdateById,
      produceSoftDeleteWhere, applyPatch, getUserId]

/-- Claim C2: when every record with id `i` is tombstoned and such a record
exists, `findById i` fails with `EntityNotFound` while
`findByIdIncludeSoftDelete i` returns the tombstoned record. -/
theorem findById_hides_tombstoned_record (i : Nat) (filter : Option WhereClause)
    (db : List SoftDeleteEntity) (r : SoftDeleteEntity)
    (hall : ∀ x ∈ db, x.id = i → x.deleted = true)
    (hfind : db.find? (fun x => x.id == i) = some r) :
    findById i filter db = .error .entityNotFound ∧
    findByIdIncludeSoftDelete i filter db = .ok r := by
  constructor
  · have hempty : superFind (some (produceSoftDeleteFilter filter (some i))) db = [] := by
      simp only [superFind, Option.getD_some, List.filter_eq_nil_iff]
      intro a ha hpa
      simp only [produceSoftDeleteFilter, Bool.and_eq_true, beq_iff_eq] at hpa
      exact absurd (hall a ha hpa.2) (by simp [hpa.1.2])
    simp [findById, superFindOne, hempty]
  · simp [findByIdIncludeSoftDelete, superFindById, hfind]

/-- Witness for C2 at the concrete database holding one tombstoned record with
id 1: `findById` fails with `EntityNotFound` and the include-soft-delete
variant returns the record. -/
theorem findById_hides_tombstoned_record_witness :
    (∀ x ∈ ([⟨1, true, some 5, none, 0⟩] : List SoftDeleteEntity),
      x.id = 1 → x.deleted = true) ∧
    List.find? (fun x => x.id == 1)
        ([⟨1, true, some 5, none, 0⟩] : List SoftDeleteEntity)
      = some ⟨1, true, some 5, none, 0⟩ ∧
    findById 1 none [⟨1, true, some 5, none, 0⟩] = .error .entityNotFound ∧
    findByIdIncludeSoftDelete 1 none [⟨1, true, some 5, none, 0⟩]
      = .ok ⟨1, true, some 5, none, 0⟩ := by
  have h := findById_hides_tombstoned_record 1 none [⟨1, true, some 5, none, 0⟩]
    ⟨1, true, some 5, none, 0⟩ (by decide) rfl
  exact ⟨by decide, rfl, h.1, h.2⟩

/-- Claim C4: `delete` never removes a record: it sets exactly the three
tombstone fields of the caller's entity (`deleted := true`,
`deletedOn := now`, `deletedBy := resolved actor`), leaves the id and the
other fields unchanged, persists via the store's update-by-identity, and in
particular records `deletedBy = "u1"` when the identity accessor yields
`{id : "u1"}`. -/
theorem delete_mutates_only_tombstone_fields (repo : RepoCtx)
    (e : SoftDeleteEntity) (db : List SoftDeleteEntity) (opts : Option CallOptions) :
    (delete repo e db opts).1.deleted = true ∧
    (delete repo e db opts).1.deletedOn = some repo.now ∧
    (delete repo e db opts).1.deletedBy = getUserId repo none ∧
    (delete repo e db opts).1.id = e.id ∧
    (delete repo e db opts).1.extra = e.extra ∧
    (delete repo e db opts).2 = superUpdate (delete repo e db opts).1 db ∧
    (repo.getCurrentUser = some (some ⟨JsVal.vstr "u1"⟩) →
      (delete repo e db opts).1.deletedBy = some "u1") := by
  refine ⟨rfl, rfl, rfl, rfl, rfl, rfl, ?_⟩
  intro h
  simp [delete, getUserId, h, JsVal.truthy, JsVal.jsToString]

/-- Witness for C4 with an identity accessor yielding `{id : "u1"}`:
the deleted entity records `deletedBy = "u1"`. -/
theorem delete_mutates_only_tombstone_fields_witness :
    (⟨some (some ⟨JsVal.vstr "u1"⟩), 7⟩ : RepoCtx).getCurrentUser
      = some (some ⟨JsVal.vstr "u1"⟩) ∧
    (delete ⟨some (some ⟨JsVal.vstr "u1"⟩), 7⟩ ⟨1, false, none, none, 9⟩
      [⟨1, false, none, none, 9⟩] none).1.deletedBy = some "u1" :=
  ⟨rfl, (delete_mutates_only_tombstone_fields ⟨some (some ⟨JsVal.vstr "u1"⟩), 7⟩
    ⟨1, false, none, none, 9⟩ [⟨1, false, none, none, 9⟩] none).2.2.2.2.2.2 rfl⟩

/-- Claim C6: each soft-delete operation preserves the invariant
`deleted = true ⇔ deletedOn is set`: the mutated entity of `delete` and every
record of the databases produced by `delete`, `deleteAll` and `deleteById`
satisfy it whenever the starting database does. -/
theorem soft_deletes_preserve_invariant (repo : RepoCtx) (e : SoftDeleteEntity)
    (db : List SoftDeleteEntity) (opts : Option CallOptions)
    (w : Option WhereClause) (i : Nat)
    (h : ∀ r ∈ db, tombstoneInvariant r) :
    tombstoneInvariant (delete repo e db opts).1 ∧
    (∀ r ∈ (delete repo e db opts).2, tombstoneInvariant r) ∧
    (∀ r ∈ (deleteAll repo w opts db).1, tombstoneInvariant r) ∧
    (∀ r ∈ deleteById repo i opts db, tombstoneInvariant r) := by
  refine ⟨by simp [delete, tombstoneInvariant], ?_, ?_, ?_⟩
  · intro r hr
    simp only [delete, superUpdate, List.mem_map] at hr
    obtain ⟨x, hx, rfl⟩ := hr
    split
    · simp [tombstoneInvariant]
    · exact h x hx
  · intro r hr
    simp only [deleteAll, updateAll, superUpdateAll, List.mem_map] at hr
    obtain ⟨x, hx, rfl⟩ := hr
    split
    · simp [tombstoneInvariant, applyPatch]
    · exact h x hx
  · intro r hr
    simp only [deleteById, superUpdateById, List.mem_map] at hr
    obtain ⟨x, hx, rfl⟩ := hr
    split
    · simp [tombstoneInvariant, applyPatch]
    · exact h x hx

/-- Witness for C6 on a concrete one-record database satisfying the invariant:
the entity mutated by `delete` satisfies it too. -/
theorem soft_deletes_preserve_invariant_witness :
    (∀ r ∈ ([⟨1, false, none, none, 0⟩] : List SoftDeleteEntity),
      tombstoneInvariant r) ∧
    tombstoneInvariant
      (delete ⟨none, 3⟩ ⟨1, false, none, none, 0⟩ [⟨1, false, none, none, 0⟩] none).1 := by
  have hinv : ∀ r ∈ ([⟨1, false, none, none, 0⟩] : List SoftDeleteEntity),
      tombstoneInvariant r := by
    intro r hr
    simp only [List.mem_singleton] at hr
    subst hr
    simp [tombstoneInvariant]
  exact ⟨hinv, (soft_deletes_preserve_invariant ⟨none, 3⟩ ⟨1, false, none, none, 0⟩
    [⟨1, false, none, none, 0⟩] none none 1 hinv).1⟩

/-- Claim C7: identity resolution never blocks a delete: when the accessor is
absent, or yields no user, or the resolved user's id is falsy, `getUserId`
returns `none`; a `delete` with an accessor yielding no user records
`deletedBy = none`; and `deleteById` with no accessor configured tombstones
the matching record with `deletedBy = none`. -/
theorem identity_resolution_never_blocks (repo : RepoCtx)
    (opts : Option CallOptions) (u : IAuthUser) (e : SoftDeleteEntity)
    (i : Nat) (db : List SoftDeleteEntity) :
    (repo.getCurrentUser = none → getUserId repo opts = none) ∧
    (repo.getCurrentUser = some none → getUserId repo none = none) ∧
    (repo.getCurrentUser = some (some u) → u.id.truthy = false →
      getUserId repo opts = none) ∧
    (repo.getCurrentUser = some none → (delete repo e db opts).1.deletedBy = none) ∧
    (repo.getCurrentUser = none →
      deleteById repo i opts db =
        db.map (fun r =>
          if r.id == i then
            { r with deleted := true, deletedOn := some repo.now, deletedBy := none }
          else r)) := by
  refine ⟨?_, ?_, ?_, ?_, ?_⟩
  · intro h
    simp [getUserId, h]
  · intro h
    simp [getUserId, h]
  · intro h ht
    simp [getUserId, h, ht]
  · intro h
    simp [delete, getUserId, h]
  · intro h
    simp [deleteById, superUpdateById, applyPatch, getUserId, h]

/-- Witness for C7: `deleteById 1` on the one-record database with no identity
accessor configured yields the tombstoned record with `deletedBy = none`. -/
theorem identity_resolution_never_blocks_witness :
    (⟨none, 4⟩ : RepoCtx).getCurrentUser = none ∧
    deleteById ⟨none, 4⟩ 1 none [⟨1, false, none, none, 0⟩]
      = [⟨1, true, some 4, none, 0⟩] := by
  refine ⟨rfl, ?_⟩
  have h := (identity_resolution_never_blocks ⟨none, 4⟩ none ⟨JsVal.vnull⟩
    ⟨1, false, none, none, 0⟩ 1 [⟨1, false, none, none, 0⟩]).2.2.2.2 rfl
  simpa using h

/-- Claim C10: when an actor is resolved, `deletedBy` is the string conversion
of the resolved user's id (so the number 42 is recorded as "42"), and a falsy
id (0, the empty string, null) makes the actor count as absent. -/
theorem getUserId_stringifies_truthy_id (repo : RepoCtx)
    (opts : Option CallOptions) (u : IAuthUser)
    (h : repo.getCurrentUser = some (some u)) :
    (u.id.truthy = true → getUserId repo opts = some u.id.jsToString) ∧
    (u.id.truthy = false → getUserId repo opts = none) ∧
    (JsVal.vnum 42).jsToString = "42" ∧
    (JsVal.vnum 0).truthy = false ∧
    (JsVal.vstr "").truthy = false ∧
    JsVal.vnull.truthy = false := by
  refine ⟨?_, ?_, rfl, rfl, rfl, rfl⟩ <;> intro ht <;> simp [getUserId, h, ht]

/-- Witness for C10: an accessor yielding a user whose id is the number 42
resolves to the string "42". -/
theorem getUserId_stringifies_truthy_id_witness :
    (⟨some (some ⟨JsVal.vnum 42⟩), 0⟩ : RepoCtx).getCurrentUser
      = some (some ⟨JsVal.vnum 42⟩) ∧
    (JsVal.vnum 42).truthy = true ∧
    getUserId ⟨some (some ⟨JsVal.vnum 42⟩), 0⟩ none = some "42" := by
  refine ⟨rfl, rfl, ?_⟩
  have h := (getUserId_stringifies_truthy_id ⟨some (some ⟨JsVal.vnum 42⟩), 0⟩
    none ⟨JsVal.vnum 42⟩ rfl).1 rfl
  simpa [JsVal.jsToString] using h

end SoftDelete
